import Mathlib

/-!
Verification of the Splitter training engine (src/splitter.py): the
skip-gram batch builder `create_batch_from_path`, the negative-sample pool
`create_negative_sample_pool`, the embedding initialization
`initialize_weights`, and the loss model `Splitter.forward`.  Python/numpy/
PyTorch constructs are shallowly embedded: lists stay lists, float
arithmetic becomes exact real arithmetic, dict iteration becomes
association-list order, and a fallible numpy call returns `Except`.
-/

/-- Errors raised by the Python runtime or libraries during batch
construction.  `valueError` models the `ValueError` numpy's
`np.random.choice` raises on an empty population; `emptyPoolError` models
the `EmptyPoolError` class the specification names, which has no
definition anywhere in the source. -/
inductive PyError where
  | valueError
  | emptyPoolError
  deriving DecidableEq

/-- Python sequence indexing `l[idx]`: a non-negative index below the
length reads directly, a negative index at least `-len(l)` wraps from the
end, anything else raises `IndexError` (modelled as `none`). -/
def pyGet (l : List Nat) (idx : Int) : Option Nat :=
  if 0 ≤ idx ∧ idx < l.length then l.get? idx.toNat
  else if -(l.length : Int) ≤ idx ∧ idx < 0 then l.get? (l.length + idx).toNat
  else none

/-- Total view of `pyGet` used where the surrounding proof establishes the
access is in bounds. -/
def pyGetD (l : List Nat) (idx : Int) : Nat :=
  (pyGet l idx).getD 0

/-- Line 219 and line 221 of splitter.py: the source-node list of one walk.
`[walk[i] for i in range(walk_length-window_size) for j in range(1,window_size+1)]`
followed by
`[walk[i] for i in range(window_size,walk_length) for j in range(1,window_size+1)]`.
Python's `range(a, b)` is `List.range' a (b - a)` (empty when `b ≤ a`,
matching truncated subtraction). -/
def source_nodes (walk_length window_size : Nat) (walk : List Nat) : List Nat :=
  ((List.range (walk_length - window_size)).flatMap fun i =>
    (List.range' 1 window_size).map fun _j => pyGetD walk (i : Int))
  ++ ((List.range' window_size (walk_length - window_size)).flatMap fun i =>
    (List.range' 1 window_size).map fun _j => pyGetD walk (i : Int))

/-- Line 220 and line 222 of splitter.py: the context-node list of one walk,
`walk[i + j]` over the first index range and `walk[i - j]` over the second. -/
def context_nodes (walk_length window_size : Nat) (walk : List Nat) : List Nat :=
  ((List.range (walk_length - window_size)).flatMap fun i =>
    (List.range' 1 window_size).map fun (j : Nat) => pyGetD walk ((i : Int) + (j : Int)))
  ++ ((List.range' window_size (walk_length - window_size)).flatMap fun i =>
    (List.range' 1 window_size).map fun (j : Nat) => pyGetD walk ((i : Int) - (j : Int)))

/-- Every index `create_batch_from_path` uses to subscript `walk` in lines
219-222: `i` and `i + j` over the first range, `i` and `i - j` over the
second. -/
def accessed_indices (walk_length window_size : Nat) : List Int :=
  ((List.range (walk_length - window_size)).flatMap fun i =>
    (List.range' 1 window_size).flatMap fun (j : Nat) => [(i : Int), (i : Int) + (j : Int)])
  ++ ((List.range' window_size (walk_length - window_size)).flatMap fun i =>
    (List.range' 1 window_size).flatMap fun (j : Nat) => [(i : Int), (i : Int) - (j : Int)])

/-- The mutable state of `SplitterTrainer` that `create_batch_from_path`
reads and extends: the hyperparameters, the negative-sample pool, the two
node-mapping dictionaries (as functions: `str2idx` from
`self.base_walker`, `personality_map` from `self.egonet_splitter`), and
the five accumulator lists reset by `reset_node_sets`. -/
structure TrainerState where
  walk_length : Nat
  window_size : Nat
  negative_samples : Nat
  negative_samples_pool : List Nat
  str2idx : Nat → Nat
  personality_map : Nat → Nat
  pure_sources : List Nat
  personas : List Nat
  sources : List Nat
  contexts : List Nat
  targets : List ℝ

/-- Lines 207-215 of splitter.py: `reset_node_sets` empties the five
accumulator lists. -/
def reset_node_sets (s : TrainerState) : TrainerState :=
  { s with pure_sources := [], personas := [], sources := [], contexts := [], targets := [] }

/-- `np.random.choice(pool, size)` (legacy numpy `RandomState.choice`):
raises `ValueError` when the population is empty, otherwise returns `size`
elements drawn with replacement; the draws are supplied by `draw`, one
pool position per draw index. -/
def np_random_choice (pool : List Nat) (size : Nat) (draw : Nat → Nat) : Except PyError (List Nat) :=
  if pool = [] then .error .valueError
  else .ok ((List.range size).map fun t => pool.getD (draw t % pool.length) 0)

/-- Python list repetition `l * n`: `n` copies of `l` concatenated. -/
def pyListMul (l : List Nat) (n : Nat) : List Nat :=
  (List.replicate n l).flatten

/-- Lines 218-229 of splitter.py: `create_batch_from_path`.  Builds the
source/context lists from one walk, then appends to the accumulators:
`pure_sources += source_nodes`,
`personas += [str2idx[personality_map[s]] for s in source_nodes]`,
`sources += source_nodes * (negative_samples + 1)`,
`contexts += context_nodes + np.random.choice(pool, negative_samples * len(source_nodes))`,
`targets += [1.0] * len(source_nodes) + [0.0] * (negative_samples * len(source_nodes))`.
A `ValueError` from the sampling call propagates. -/
def create_batch_from_path (s : TrainerState) (walk : List Nat) (draw : Nat → Nat) :
    Except PyError TrainerState :=
  let src := source_nodes s.walk_length s.window_size walk
  let ctx := context_nodes s.walk_length s.window_size walk
  let length_of_source_nodes := src.length
  match np_random_choice s.negative_samples_pool
      (s.negative_samples * length_of_source_nodes) draw with
  | .error e => .error e
  | .ok negs =>
    .ok { s with
      pure_sources := s.pure_sources ++ src
      personas := s.personas ++ src.map fun n => s.str2idx (s.personality_map n)
      sources := s.sources ++ pyListMul src (s.negative_samples + 1)
      contexts := s.contexts ++ (ctx ++ negs)
      targets := s.targets ++
        (List.replicate length_of_source_nodes (1 : ℝ)
          ++ List.replicate (s.negative_samples * length_of_source_nodes) (0 : ℝ)) }

/-- Python's `int(x)` for the non-negative arguments it receives here:
truncation toward zero, which is the floor. -/
noncomputable def py_int (x : ℝ) : Nat :=
  Nat.floor x

/-- Line 159 of splitter.py:
`{node: int(1+persona_graph.degree(node)**0.75) for node in persona_graph.nodes()}`,
with the persona graph given by its node list and degree function and the
float power read as exact real exponentiation. -/
noncomputable def downsampled_degrees (nodes : List Nat) (degree : Nat → Nat) :
    List (Nat × Nat) :=
  nodes.map fun node => (node, py_int ((1 : ℝ) + (degree node : ℝ) ^ (0.75 : ℝ)))

/-- Line 160 of splitter.py: `[k for k, v in downsampled_degrees.items() for i in range(v)]`. -/
noncomputable def create_negative_sample_pool (nodes : List Nat) (degree : Nat → Nat) :
    List Nat :=
  (downsampled_degrees nodes degree).flatMap fun kv => List.replicate kv.2 kv.1

/-- A `torch.nn.Parameter`: the stored tensor (as a list of rows) together
with its `requires_grad` flag. -/
structure PyParameter where
  data : List (List ℝ)
  requiresGrad : Bool

/-- PyTorch semantics of the statement `p.data = t`: the stored tensor of
`p` is replaced by the tensor value of `t`, while `p` itself remains the
same `Parameter` object, so its own `requires_grad` flag is untouched —
in particular a `requires_grad` flag carried by the right-hand side is
discarded with its `Parameter` wrapper. -/
def PyParameter.setData (p t : PyParameter) : PyParameter :=
  { data := t.data, requiresGrad := p.requiresGrad }

/-- The two embedding tables of the `Splitter` module. -/
structure SplitterModel where
  base_node_embedding : PyParameter
  node_embedding : PyParameter

/-- Lines 37-42 of splitter.py: `create_weights` builds the two
`torch.nn.Embedding` layers.  A fresh `nn.Embedding` weight is a trainable
`Parameter` (`requires_grad=True`); its random initial values are
irrelevant here (rows of zeros stand in) because `initialize_weights`
overwrites the data of both tables. -/
def create_weights (base_node_count node_count dimensions : Nat) : SplitterModel :=
  { base_node_embedding :=
      { data := List.replicate base_node_count (List.replicate dimensions (0 : ℝ))
        requiresGrad := true }
    node_embedding :=
      { data := List.replicate node_count (List.replicate dimensions (0 : ℝ))
        requiresGrad := true } }

/-- Lines 44-53 of splitter.py: `initialize_weights`.
`persona_embedding = np.array([base_node_embedding[str2idx[original_node]] for node, original_node in mapping.items()])`,
then
`node_embedding.weight.data = Parameter(Tensor(persona_embedding))` and
`base_node_embedding.weight.data = Parameter(Tensor(base_node_embedding), requires_grad=False)`.
`mapping` is the `personality_map` dict as an association list in its
iteration (= insertion) order. -/
def initialize_weights (m : SplitterModel) (base_node_embedding : List (List ℝ))
    (mapping : List (Nat × Nat)) (str2idx : Nat → Nat) : SplitterModel :=
  let persona_embedding :=
    mapping.map fun me => base_node_embedding.getD (str2idx me.2) []
  { node_embedding :=
      m.node_embedding.setData { data := persona_embedding, requiresGrad := true }
    base_node_embedding :=
      m.base_node_embedding.setData { data := base_node_embedding, requiresGrad := false } }

/-- `model.parameters()`: the weights of the two embedding layers, handed
to `torch.optim.Adam` in `fit` (line 261). -/
def SplitterModel.parameters (m : SplitterModel) : List PyParameter :=
  [m.base_node_embedding, m.node_embedding]

/-- The parameters an optimizer step can move: those with
`requires_grad=True` (gradients flow into exactly these). -/
def trainable_parameters (m : SplitterModel) : List PyParameter :=
  m.parameters.filter fun p => p.requiresGrad

/-- Python dict lookup `mapping[p]` on the association list, with the
first matching key winning (`0` for a missing key, which the theorems
exclude). -/
def persona_to_original (mapping : List (Nat × Nat)) (p : Nat) : Nat :=
  ((mapping.lookup p).getD 0)

/-- `torch.sigmoid`. -/
noncomputable def sigmoid (x : ℝ) : ℝ :=
  1 / (1 + Real.exp (-x))

/-- The L2 norm of one row. -/
noncomputable def l2norm (v : List ℝ) : ℝ :=
  Real.sqrt (v.map fun x => x ^ 2).sum

/-- The `eps=1e-12` default of `torch.nn.functional.normalize`. -/
noncomputable def norm_eps : ℝ :=
  1 / 10 ^ 12

/-- `torch.nn.functional.normalize(v, p=2, dim=1)` on one row: the row
divided by its L2 norm clamped below by `eps = 1e-12`. -/
noncomputable def functional_normalize (v : List ℝ) : List ℝ :=
  v.map fun x => x / max (l2norm v) norm_eps

/-- `torch.mean` of a vector (`0/0 = 0` for the empty vector, matching
Lean's division; empty batches do not occur in training). -/
noncomputable def list_mean (l : List ℝ) : ℝ :=
  l.sum / l.length

/-- Lines 63-66 of splitter.py: normalize `node_f` and `feature_f`
row-wise, take the per-row dot product (`torch.sum(node_f*feature_f, dim=1)`)
and apply `torch.sigmoid`. -/
noncomputable def main_scores (node_f feature_f : List (List ℝ)) : List ℝ :=
  (List.zipWith (fun u v => (List.zipWith (fun x y => x * y) u v).sum)
    (node_f.map functional_normalize) (feature_f.map functional_normalize)).map sigmoid

/-- Lines 55-70 of splitter.py: `calculate_main_loss`,
`-mean(targets*log(scores) + (1-targets)*log(1-scores))`. -/
noncomputable def calculate_main_loss (node_f feature_f : List (List ℝ))
    (targets : List ℝ) : ℝ :=
  -(list_mean (List.zipWith (fun t s => t * Real.log s + (1 - t) * Real.log (1 - s))
    targets (main_scores node_f feature_f)))

/-- Lines 79-82 of splitter.py: the sigmoid cosine scores of the
regularization term. -/
noncomputable def reg_scores (source_f original_f : List (List ℝ)) : List ℝ :=
  (List.zipWith (fun u v => (List.zipWith (fun x y => x * y) u v).sum)
    (source_f.map functional_normalize) (original_f.map functional_normalize)).map sigmoid

/-- Lines 72-85 of splitter.py: `calculate_regularization`,
`-mean(log(scores))`. -/
noncomputable def calculate_regularization (source_f original_f : List (List ℝ)) : ℝ :=
  -(list_mean ((reg_scores source_f original_f).map Real.log))

/-- Lines 87-102 of splitter.py: `Splitter.forward`,
`main_loss + lambd * regularization_loss`. -/
noncomputable def Splitter.forward (lambd : ℝ) (node_f feature_f : List (List ℝ))
    (targets : List ℝ) (source_f original_f : List (List ℝ)) : ℝ :=
  calculate_main_loss node_f feature_f targets
    + lambd * calculate_regularization source_f original_f

/-- Row `k` of the matrix scaled by `c`, the rest unchanged (the
perturbation the scale-invariance claim quantifies over). -/
noncomputable def scale_row (M : List (List ℝ)) (k : Nat) (c : ℝ) : List (List ℝ) :=
  M.set k ((M.getD k []).map fun x => c * x)

/-- Modelled from the spec's words, for comparison with the code's loss:
the per-example binary cross-entropy `-[t*log(p) + (1-t)*log(1-p)]`. -/
noncomputable def spec_binary_cross_entropy (t p : ℝ) : ℝ :=
  -(t * Real.log p + (1 - t) * Real.log (1 - p))

/-- Modelled from the spec's words, for comparison with the code's loss:
the mean of the per-example binary cross-entropies, plus `lambd` times the
mean over the positive sources of `-log` of the sigmoid cosine similarity
between each persona source vector and its base vector. -/
noncomputable def spec_total_loss (lambd : ℝ) (node_f feature_f : List (List ℝ))
    (targets : List ℝ) (source_f original_f : List (List ℝ)) : ℝ :=
  list_mean (List.zipWith spec_binary_cross_entropy targets (main_scores node_f feature_f))
    + lambd * list_mean ((reg_scores source_f original_f).map fun p => -(Real.log p))

/-- A small concrete trainer state (walk length 3, window 1, two negative
samples per positive pair, a one-node pool, stale accumulator content)
used to instantiate the batch-shape theorem. -/
def exTrainerState : TrainerState :=
  { walk_length := 3
    window_size := 1
    negative_samples := 2
    negative_samples_pool := [7]
    str2idx := fun n => n
    personality_map := fun n => n
    pure_sources := [9]
    personas := [9]
    sources := [9]
    contexts := [9]
    targets := [] }

theorem length_flatMap_const {α β : Type} (l : List α) (f : α → List β) (w : Nat)
    (h : ∀ a ∈ l, (f a).length = w) : (l.flatMap f).length = l.length * w := by
  induction l with
  | nil => simp
  | cons a t ih =>
    simp only [List.flatMap_cons, List.length_append, List.length_cons]
    rw [h a (by simp), ih fun x hx => h x (by simp [hx])]
    ring

theorem length_flatMap_map_range' {α : Type} (l : List Nat) (g : Nat → Nat → α) (w : Nat) :
    (l.flatMap fun i => (List.range' 1 w).map fun j => g i j).length = l.length * w := by
  apply length_flatMap_const
  intro a _
  rw [List.length_map, List.length_range']

theorem length_source_nodes (walk_length window_size : Nat) (walk : List Nat) :
    (source_nodes walk_length window_size walk).length
      = 2 * (window_size * (walk_length - window_size)) := by
  rw [source_nodes, List.length_append, length_flatMap_map_range',
    length_flatMap_map_range', List.length_range, List.length_range']
  ring

theorem length_context_nodes (walk_length window_size : Nat) (walk : List Nat) :
    (context_nodes walk_length window_size walk).length
      = 2 * (window_size * (walk_length - window_size)) := by
  rw [context_nodes, List.length_append, length_flatMap_map_range',
    length_flatMap_map_range', List.length_range, List.length_range']
  ring

/-- C1 (counterexample): for the walk `[5, 6]` with `walk_length = 2` and
`window_size = 1` we have `L = 2 ≤ 2 = 2w`, so the claim predicts zero
positive pairs, but `create_batch_from_path` builds two positive pairs
(the pair sources are `source_nodes`, one entry per positive pair). -/
theorem c1_counterexample :
    (source_nodes 2 1 [5, 6]).length = 2 ∧ (2 : Nat) ≤ 2 * 1 := by
  constructor
  · decide
  · decide

/-- C1 (amended): for every walk, configured walk length `L` and window
size `w`, the batch builder produces exactly `2w(L - w)` positive pairs
(`L - w` truncated at zero, so zero pairs exactly when `L ≤ w`): each of
`source_nodes` and `context_nodes` has that length.  A full window is
required only on the side the context is drawn from — right contexts use
positions `i < L - w`, left contexts use positions `w ≤ i < L` — not on
both sides at once. -/
theorem c1_positive_pair_count (walk_length window_size : Nat) (walk : List Nat) :
    (source_nodes walk_length window_size walk).length
        = 2 * (window_size * (walk_length - window_size))
      ∧ (context_nodes walk_length window_size walk).length
        = 2 * (window_size * (walk_length - window_size)) :=
  ⟨length_source_nodes walk_length window_size walk,
    length_context_nodes walk_length window_size walk⟩

/-- C2 (code_bug): the base-node embedding table is NOT frozen by
`initialize_weights`.  Line 53 assigns
`base_node_embedding.weight.data = Parameter(..., requires_grad=False)`,
but assigning to `.data` replaces only the stored tensor and leaves the
`requires_grad` flag of the weight `Parameter` itself `True` (the default
from `create_weights`).  Hence after initialization the base table still
requires gradients and is among the trainable parameters handed to the
Adam optimizer in `fit`, contradicting the claim that gradients never
flow into it and that its rows are unchanged by optimizer steps. -/
theorem c2_base_table_remains_trainable (base_node_count node_count dimensions : Nat)
    (base : List (List ℝ)) (mapping : List (Nat × Nat)) (str2idx : Nat → Nat) :
    ((initialize_weights (create_weights base_node_count node_count dimensions)
        base mapping str2idx).base_node_embedding.requiresGrad = true)
      ∧ (initialize_weights (create_weights base_node_count node_count dimensions)
            base mapping str2idx).base_node_embedding
          ∈ trainable_parameters (initialize_weights
              (create_weights base_node_count node_count dimensions) base mapping str2idx) := by
  constructor
  · rfl
  · refine List.mem_filter.mpr ⟨?_, ?_⟩
    · simp [SplitterModel.parameters]
    · rfl

/-- C9 (counterexample): sampling from the pool built from an empty
persona graph fails with numpy's `ValueError`, not with the
`EmptyPoolError` the claim names (no such error class exists in the
source). -/
theorem c9_counterexample :
    np_random_choice (create_negative_sample_pool [] fun _ => 0) 1 (fun t => t)
        = Except.error PyError.valueError
      ∧ (Except.error PyError.valueError : Except PyError (List Nat))
          ≠ Except.error PyError.emptyPoolError := by
  constructor
  · rfl
  · simp

/-- C9 (amended): when the persona graph is empty the negative-sample
pool is empty, and every attempt to sample from the empty pool fails —
with the `ValueError` numpy raises for an empty population (the source
defines no `EmptyPoolError`). -/
theorem c9_empty_pool_sampling_fails (degree : Nat → Nat) (size : Nat) (draw : Nat → Nat) :
    create_negative_sample_pool [] degree = []
      ∧ np_random_choice (create_negative_sample_pool [] degree) size draw
          = Except.error PyError.valueError :=
  ⟨rfl, rfl⟩

/-- C10: every index `create_batch_from_path` uses to subscript the walk
lies in `[0, walk_length - 1]`, for every window size; consequently every
access succeeds as long as the walk holds at least `walk_length` elements
(the loops are driven by the configured `self.walk_length`, not by the
actual walk length). -/
theorem c10_walk_accesses_in_bounds (walk_length window_size : Nat) (walk : List Nat)
    (idx : Int) (hidx : idx ∈ accessed_indices walk_length window_size) :
    (0 ≤ idx ∧ idx < (walk_length : Int))
      ∧ (walk_length ≤ walk.length → (pyGet walk idx).isSome) := by
  have hb : 0 ≤ idx ∧ idx < (walk_length : Int) := by
    rw [accessed_indices] at hidx
    rcases List.mem_append.mp hidx with h | h
    · obtain ⟨i, hi, hrest⟩ := List.mem_flatMap.mp h
      obtain ⟨j, hj, hmem⟩ := List.mem_flatMap.mp hrest
      rw [List.mem_range] at hi
      rw [List.mem_range'_1] at hj
      simp only [List.mem_cons, List.not_mem_nil, or_false] at hmem
      rcases hmem with rfl | rfl <;> constructor <;> omega
    · obtain ⟨i, hi, hrest⟩ := List.mem_flatMap.mp h
      obtain ⟨j, hj, hmem⟩ := List.mem_flatMap.mp hrest
      rw [List.mem_range'_1] at hi
      rw [List.mem_range'_1] at hj
      simp only [List.mem_cons, List.not_mem_nil, or_false] at hmem
      rcases hmem with rfl | rfl <;> constructor <;> omega
  refine ⟨hb, fun hlen => ?_⟩
  have hcond : 0 ≤ idx ∧ idx < (walk.length : Int) := ⟨hb.1, by omega⟩
  rw [pyGet, if_pos hcond]
  have hidx2 : idx.toNat < walk.length := by omega
  rw [List.get?_eq_get hidx2]
  rfl

/-- C10 (witness): the access at index 1 for `walk_length = 3`,
`window_size = 1`, on the walk `[4, 5, 6]`. -/
theorem c10_witness :
    ((0 : Int) ≤ 1 ∧ (1 : Int) < (3 : Nat))
      ∧ ((3 : Nat) ≤ ([4, 5, 6] : List Nat).length → (pyGet [4, 5, 6] 1).isSome) :=
  c10_walk_accesses_in_bounds 3 1 [4, 5, 6] 1 (by decide)

theorem lookup_of_range'_keys {β : Type} (d : Nat × β) :
    ∀ (l : List (Nat × β)) (s p : Nat),
      l.map Prod.fst = List.range' s l.length → s ≤ p → p < s + l.length →
      l.lookup p = some (l.getD (p - s) d).2 := by
  intro l
  induction l with
  | nil =>
    intro s p _ _ hp
    simp at hp
    omega
  | cons a t ih =>
    intro s p h hs hp
    rw [List.length_cons, List.range'_succ, List.map_cons, List.cons.injEq] at h
    obtain ⟨ha, ht⟩ := h
    by_cases hps : p = s
    · subst hps
      obtain ⟨a1, a2⟩ := a
      simp only at ha
      subst ha
      simp [List.lookup]
    · obtain ⟨a1, a2⟩ := a
      simp only at ha
      subst ha
      have hlk : List.lookup p ((a1, a2) :: t) = List.lookup p t := by
        simp [List.lookup, beq_eq_false_iff_ne.mpr (by omega : p ≠ a1)]
      rw [hlk, ih (a1 + 1) p ht (by omega) (by simp at hp ⊢; omega)]
      have hsub : p - a1 = (p - (a1 + 1)) + 1 := by omega
      rw [hsub]
      simp [List.getD]

/-- C3: immediately after `initialize_weights`, row `p` of the persona
table equals exactly the base-table row of the original node owning
persona `p` (at its `str2idx` table index), provided the `personality_map`
keys iterate as `0, 1, ..., n-1` — which is how `EgoNetSplitter` builds
the dict, persona ids being assigned consecutively in insertion order. -/
theorem c3_persona_rows_initialized_from_base (m : SplitterModel)
    (base : List (List ℝ)) (mapping : List (Nat × Nat)) (str2idx : Nat → Nat) (p : Nat)
    (hkeys : mapping.map Prod.fst = List.range' 0 mapping.length)
    (hp : p < mapping.length) :
    (initialize_weights m base mapping str2idx).node_embedding.data.getD p []
      = (initialize_weights m base mapping str2idx).base_node_embedding.data.getD
          (str2idx (persona_to_original mapping p)) [] := by
  have hpo : persona_to_original mapping p = (mapping.getD p (0, 0)).2 := by
    rw [persona_to_original,
      lookup_of_range'_keys (0, 0) mapping 0 p hkeys (Nat.zero_le p) (by omega)]
    simp
  have hbase : (initialize_weights m base mapping str2idx).base_node_embedding.data = base := rfl
  have hnode : (initialize_weights m base mapping str2idx).node_embedding.data
      = mapping.map fun me => base.getD (str2idx me.2) [] := rfl
  rw [hbase, hnode, hpo]
  have hlen : p < (mapping.map fun me => base.getD (str2idx me.2) []).length := by
    simpa using hp
  rw [List.getD_eq_getElem _ [] hlen, List.getElem_map,
    List.getD_eq_getElem mapping (0, 0) hp]

/-- C3 (witness): two personas of a three-node base graph, persona 1
owned by original node 0. -/
theorem c3_witness :
    (initialize_weights (create_weights 3 2 1) [[(1 : ℝ)], [2], [3]]
        [(0, 2), (1, 0)] (fun n => n)).node_embedding.data.getD 1 []
      = (initialize_weights (create_weights 3 2 1) [[(1 : ℝ)], [2], [3]]
          [(0, 2), (1, 0)] (fun n => n)).base_node_embedding.data.getD
            ((fun n => n) (persona_to_original [(0, 2), (1, 0)] 1)) [] :=
  c3_persona_rows_initialized_from_base (create_weights 3 2 1) [[(1 : ℝ)], [2], [3]]
    [(0, 2), (1, 0)] (fun n => n) 1 (by decide) (by decide)

theorem length_pyListMul (l : List Nat) (n : Nat) :
    (pyListMul l n).length = n * l.length := by
  rw [pyListMul, List.length_flatten, List.map_replicate, List.sum_replicate, smul_eq_mul]

theorem create_batch_ok (s : TrainerState) (walk : List Nat) (draw : Nat → Nat)
    (hpool : s.negative_samples_pool ≠ []) :
    create_batch_from_path s walk draw = Except.ok
      { s with
        pure_sources := s.pure_sources ++ source_nodes s.walk_length s.window_size walk
        personas := s.personas ++ (source_nodes s.walk_length s.window_size walk).map
          fun n => s.str2idx (s.personality_map n)
        sources := s.sources
          ++ pyListMul (source_nodes s.walk_length s.window_size walk) (s.negative_samples + 1)
        contexts := s.contexts ++ (context_nodes s.walk_length s.window_size walk
          ++ (List.range (s.negative_samples
                * (source_nodes s.walk_length s.window_size walk).length)).map
              fun t => s.negative_samples_pool.getD
                (draw t % s.negative_samples_pool.length) 0)
        targets := s.targets
          ++ (List.replicate (source_nodes s.walk_length s.window_size walk).length (1 : ℝ)
            ++ List.replicate (s.negative_samples
                * (source_nodes s.walk_length s.window_size walk).length) (0 : ℝ)) } := by
  rw [create_batch_from_path, np_random_choice, if_neg hpool]

/-- C4: processing one walk from a freshly reset accumulator state (pool
non-empty), the appended batch has `targets` equal to exactly `P` ones
followed by `negative_samples * P` zeros, `sources`, `contexts` and
`targets` all of length `P * (negative_samples + 1)`, and `pure_sources`
and `personas` of length exactly `P`, where `P` is the number of positive
pairs (`(source_nodes ...).length`). -/
theorem c4_batch_shape (s : TrainerState) (walk : List Nat) (draw : Nat → Nat)
    (hpool : s.negative_samples_pool ≠ []) :
    ∃ b, create_batch_from_path (reset_node_sets s) walk draw = Except.ok b
      ∧ b.targets
          = List.replicate (source_nodes s.walk_length s.window_size walk).length (1 : ℝ)
            ++ List.replicate (s.negative_samples
                * (source_nodes s.walk_length s.window_size walk).length) (0 : ℝ)
      ∧ b.sources.length
          = (source_nodes s.walk_length s.window_size walk).length * (s.negative_samples + 1)
      ∧ b.contexts.length
          = (source_nodes s.walk_length s.window_size walk).length * (s.negative_samples + 1)
      ∧ b.targets.length
          = (source_nodes s.walk_length s.window_size walk).length * (s.negative_samples + 1)
      ∧ b.pure_sources.length = (source_nodes s.walk_length s.window_size walk).length
      ∧ b.personas.length = (source_nodes s.walk_length s.window_size walk).length := by
  have hpool2 : (reset_node_sets s).negative_samples_pool ≠ [] := hpool
  refine ⟨_, create_batch_ok (reset_node_sets s) walk draw hpool2, ?_, ?_, ?_, ?_, ?_, ?_⟩
  · simp [reset_node_sets]
  · simp only [reset_node_sets, List.nil_append, List.length_append]
    rw [length_pyListMul]
    ring
  · simp only [reset_node_sets, List.nil_append, List.length_append, List.length_map,
      List.length_range]
    rw [length_context_nodes, length_source_nodes]
    ring
  · simp only [reset_node_sets, List.nil_append, List.length_append, List.length_replicate]
    ring
  · simp [reset_node_sets]
  · simp [reset_node_sets]

/-- C4 (witness): the concrete trainer state `exTrainerState` on the walk
`[4, 5, 6]`. -/
theorem c4_witness :
    ∃ b, create_batch_from_path (reset_node_sets exTrainerState) [4, 5, 6] (fun t => t)
          = Except.ok b
      ∧ b.targets
          = List.replicate (source_nodes exTrainerState.walk_length
              exTrainerState.window_size [4, 5, 6]).length (1 : ℝ)
            ++ List.replicate (exTrainerState.negative_samples
                * (source_nodes exTrainerState.walk_length
                    exTrainerState.window_size [4, 5, 6]).length) (0 : ℝ)
      ∧ b.sources.length
          = (source_nodes exTrainerState.walk_length exTrainerState.window_size [4, 5, 6]).length
            * (exTrainerState.negative_samples + 1)
      ∧ b.contexts.length
          = (source_nodes exTrainerState.walk_length exTrainerState.window_size [4, 5, 6]).length
            * (exTrainerState.negative_samples + 1)
      ∧ b.targets.length
          = (source_nodes exTrainerState.walk_length exTrainerState.window_size [4, 5, 6]).length
            * (exTrainerState.negative_samples + 1)
      ∧ b.pure_sources.length
          = (source_nodes exTrainerState.walk_length exTrainerState.window_size [4, 5, 6]).length
      ∧ b.personas.length
          = (source_nodes exTrainerState.walk_length exTrainerState.window_size [4, 5, 6]).length :=
  c4_batch_shape exTrainerState [4, 5, 6] (fun t => t) (by decide)

theorem count_flatMap_replicate (nodes : List Nat) (w : Nat → Nat) (n : Nat)
    (hnd : nodes.Nodup) (hn : n ∈ nodes) :
    ((nodes.map fun m => (m, w m)).flatMap fun kv => List.replicate kv.2 kv.1).count n
      = w n := by
  induction nodes with
  | nil => simp at hn
  | cons a t ih =>
    simp only [List.map_cons, List.flatMap_cons, List.count_append]
    rcases List.mem_cons.mp hn with h | h
    · subst h
      have hnt : n ∉ t := (List.nodup_cons.mp hnd).1
      have hz : ((t.map fun m => (m, w m)).flatMap fun kv => List.replicate kv.2 kv.1).count n
          = 0 := by
        rw [List.count_eq_zero]
        intro hmem
        simp only [List.mem_flatMap, List.mem_map, List.mem_replicate] at hmem
        obtain ⟨kv, ⟨m, hm, rfl⟩, _, rfl⟩ := hmem
        exact hnt hm
      rw [hz, List.count_replicate_self]
      omega
    · have hna : n ≠ a := by
        intro he
        exact (List.nodup_cons.mp hnd).1 (he ▸ h)
      rw [ih (List.nodup_cons.mp hnd).2 h, List.count_replicate]
      simp [Ne.symm hna]

/-- C6: for every node of the persona graph (its node list having no
duplicates), the negative-sample pool contains the node with multiplicity
exactly `1 + floor(degree ** 0.75)`, and this weight is monotonically
non-decreasing in the degree. -/
theorem c6_pool_weight (nodes : List Nat) (degree : Nat → Nat) (n : Nat)
    (hnd : nodes.Nodup) (hn : n ∈ nodes) (d e : Nat) (hde : d ≤ e) :
    (create_negative_sample_pool nodes degree).count n
        = 1 + Nat.floor (((degree n : ℝ)) ^ (0.75 : ℝ))
      ∧ py_int ((1 : ℝ) + (d : ℝ) ^ (0.75 : ℝ)) ≤ py_int ((1 : ℝ) + (e : ℝ) ^ (0.75 : ℝ)) := by
  constructor
  · rw [create_negative_sample_pool, downsampled_degrees,
      count_flatMap_replicate nodes _ n hnd hn, py_int]
    have hx : (0 : ℝ) ≤ (degree n : ℝ) ^ (0.75 : ℝ) :=
      Real.rpow_nonneg (Nat.cast_nonneg _) _
    rw [add_comm (1 : ℝ), Nat.floor_add_one hx, add_comm]
  · rw [py_int, py_int]
    apply Nat.floor_mono
    have hle : (d : ℝ) ^ (0.75 : ℝ) ≤ (e : ℝ) ^ (0.75 : ℝ) :=
      Real.rpow_le_rpow (Nat.cast_nonneg d) (Nat.cast_le.mpr hde) (by norm_num)
    linarith

/-- C6 (witness): the two-node persona graph `[2, 3]` with `degree = id`,
counting node 2, and degrees 0 ≤ 5 for monotonicity. -/
theorem c6_witness :
    (create_negative_sample_pool [2, 3] (fun m => m)).count 2
        = 1 + Nat.floor (((2 : Nat) : ℝ) ^ (0.75 : ℝ))
      ∧ py_int ((1 : ℝ) + ((0 : Nat) : ℝ) ^ (0.75 : ℝ))
          ≤ py_int ((1 : ℝ) + ((5 : Nat) : ℝ) ^ (0.75 : ℝ)) :=
  c6_pool_weight [2, 3] (fun m => m) 2 (by decide) (by decide) 0 5 (by decide)

theorem list_sum_map_neg (l : List ℝ) : (l.map fun x => -x).sum = -l.sum := by
  induction l with
  | nil => simp
  | cons a t ih =>
    simp only [List.map_cons, List.sum_cons, ih]
    ring

/-- C5: the loss computed by `Splitter.forward` equals the specification's
formula: the mean over all batch examples of the binary cross-entropy
`-[t*log(p) + (1-t)*log(1-p)]` of the sigmoid cosine score of the
normalized source/context rows, plus `lambd` times the mean over the
positive-source rows of `-log` of their sigmoid cosine score against the
base rows. -/
theorem c5_forward_eq_spec (lambd : ℝ) (node_f feature_f : List (List ℝ))
    (targets : List ℝ) (source_f original_f : List (List ℝ)) :
    Splitter.forward lambd node_f feature_f targets source_f original_f
      = spec_total_loss lambd node_f feature_f targets source_f original_f := by
  rw [Splitter.forward, spec_total_loss, calculate_main_loss, calculate_regularization]
  have hmain : -(list_mean (List.zipWith
        (fun t s => t * Real.log s + (1 - t) * Real.log (1 - s))
        targets (main_scores node_f feature_f)))
      = list_mean (List.zipWith spec_binary_cross_entropy targets
          (main_scores node_f feature_f)) := by
    have h1 : List.zipWith spec_binary_cross_entropy targets (main_scores node_f feature_f)
        = (List.zipWith (fun t s => t * Real.log s + (1 - t) * Real.log (1 - s))
            targets (main_scores node_f feature_f)).map fun x => -x := by
      rw [List.map_zipWith]
      rfl
    rw [h1, list_mean, list_mean, list_sum_map_neg, List.length_map, neg_div]
  have hreg : -(list_mean ((reg_scores source_f original_f).map Real.log))
      = list_mean ((reg_scores source_f original_f).map fun p => -(Real.log p)) := by
    have h2 : (reg_scores source_f original_f).map (fun p => -(Real.log p))
        = ((reg_scores source_f original_f).map Real.log).map fun x => -x := by
      rw [List.map_map]
      rfl
    rw [h2, list_mean, list_mean, list_sum_map_neg, neg_div]
    simp [List.length_map]
  rw [hmain, hreg]

theorem list_sum_nonpos (l : List ℝ) (h : ∀ x ∈ l, x ≤ 0) : l.sum ≤ 0 := by
  induction l with
  | nil => simp
  | cons a t ih =>
    simp only [List.sum_cons]
    have ha := h a (by simp)
    have ht := ih fun x hx => h x (by simp [hx])
    linarith

theorem exists_of_mem_zipWith {α β γ : Type} (f : α → β → γ) :
    ∀ (as : List α) (bs : List β) (c : γ), c ∈ List.zipWith f as bs →
      ∃ a ∈ as, ∃ b ∈ bs, c = f a b := by
  intro as
  induction as with
  | nil =>
    intro bs c h
    simp at h
  | cons a t ih =>
    intro bs c h
    cases bs with
    | nil => simp at h
    | cons b u =>
      rw [List.zipWith_cons_cons] at h
      rcases List.mem_cons.mp h with h | h
      · exact ⟨a, by simp, b, by simp, h⟩
      · obtain ⟨a2, ha2, b2, hb2, rfl⟩ := ih u c h
        exact ⟨a2, by simp [ha2], b2, by simp [hb2], rfl⟩

theorem sigmoid_pos (x : ℝ) : 0 < sigmoid x := by
  rw [sigmoid]
  positivity

theorem sigmoid_lt_one (x : ℝ) : sigmoid x < 1 := by
  rw [sigmoid, div_lt_one (by positivity)]
  linarith [Real.exp_pos (-x)]

theorem mem_main_scores_bounds (node_f feature_f : List (List ℝ)) (p : ℝ)
    (hp : p ∈ main_scores node_f feature_f) : 0 < p ∧ p < 1 := by
  rw [main_scores] at hp
  obtain ⟨x, _, rfl⟩ := List.mem_map.mp hp
  exact ⟨sigmoid_pos x, sigmoid_lt_one x⟩

theorem mem_reg_scores_bounds (source_f original_f : List (List ℝ)) (p : ℝ)
    (hp : p ∈ reg_scores source_f original_f) : 0 < p ∧ p < 1 := by
  rw [reg_scores] at hp
  obtain ⟨x, _, rfl⟩ := List.mem_map.mp hp
  exact ⟨sigmoid_pos x, sigmoid_lt_one x⟩

theorem calculate_main_loss_nonneg (node_f feature_f : List (List ℝ)) (targets : List ℝ)
    (ht : ∀ t ∈ targets, t = 0 ∨ t = 1) :
    0 ≤ calculate_main_loss node_f feature_f targets := by
  rw [calculate_main_loss, list_mean]
  have hsum : (List.zipWith (fun t s => t * Real.log s + (1 - t) * Real.log (1 - s))
      targets (main_scores node_f feature_f)).sum ≤ 0 := by
    apply list_sum_nonpos
    intro x hx
    obtain ⟨t, htm, s, hsm, rfl⟩ := exists_of_mem_zipWith _ _ _ _ hx
    have hs := mem_main_scores_bounds _ _ _ hsm
    have hlog1 : Real.log s ≤ 0 := Real.log_nonpos (le_of_lt hs.1) (le_of_lt hs.2)
    have hlog2 : Real.log (1 - s) ≤ 0 := Real.log_nonpos (by linarith) (by linarith)
    rcases ht t htm with rfl | rfl
    · simpa using hlog2
    · simpa using hlog1
  have hlen : (0 : ℝ) ≤ ((List.zipWith (fun t s => t * Real.log s + (1 - t) * Real.log (1 - s))
      targets (main_scores node_f feature_f)).length : ℝ) := Nat.cast_nonneg _
  have := div_nonpos_iff.mpr (Or.inr ⟨hsum, hlen⟩)
  linarith

theorem calculate_regularization_nonneg (source_f original_f : List (List ℝ)) :
    0 ≤ calculate_regularization source_f original_f := by
  rw [calculate_regularization, list_mean]
  have hsum : ((reg_scores source_f original_f).map Real.log).sum ≤ 0 := by
    apply list_sum_nonpos
    intro x hx
    obtain ⟨s, hsm, rfl⟩ := List.mem_map.mp hx
    have hs := mem_reg_scores_bounds _ _ _ hsm
    exact Real.log_nonpos (le_of_lt hs.1) (le_of_lt hs.2)
  have hlen : (0 : ℝ) ≤ (((reg_scores source_f original_f).map Real.log).length : ℝ) :=
    Nat.cast_nonneg _
  have := div_nonpos_iff.mpr (Or.inr ⟨hsum, hlen⟩)
  linarith

/-- C8: for every embedding input, target labels drawn from {0, 1} and
non-negative `lambd`, the loss `Splitter.forward` computes is non-negative
(hence finite, as a real number of the exact model), and every probability
entering a logarithm — the sigmoid scores of both loss terms — lies
strictly between 0 and 1, so no log term is undefined or infinite.  The
bound comes from the sigmoid of a dot product of normalized rows, not from
an explicit clamp: the source applies no clamping. -/
theorem c8_loss_nonneg_finite (lambd : ℝ) (node_f feature_f : List (List ℝ))
    (targets : List ℝ) (source_f original_f : List (List ℝ))
    (hl : 0 ≤ lambd) (ht : ∀ t ∈ targets, t = 0 ∨ t = 1) :
    0 ≤ Splitter.forward lambd node_f feature_f targets source_f original_f
      ∧ (∀ p ∈ main_scores node_f feature_f, 0 < p ∧ p < 1)
      ∧ (∀ p ∈ reg_scores source_f original_f, 0 < p ∧ p < 1) := by
  refine ⟨?_, mem_main_scores_bounds node_f feature_f, mem_reg_scores_bounds source_f original_f⟩
  rw [Splitter.forward]
  have h1 := calculate_main_loss_nonneg node_f feature_f targets ht
  have h2 := calculate_regularization_nonneg source_f original_f
  have h3 : 0 ≤ lambd * calculate_regularization source_f original_f := mul_nonneg hl h2
  linarith

/-- C8 (witness): `lambd = 1/10`, one positive example, all vectors `[1]`. -/
theorem c8_witness :
    0 ≤ Splitter.forward ((1 : ℝ) / 10) [[(1 : ℝ)]] [[(1 : ℝ)]] [(1 : ℝ)] [[(1 : ℝ)]] [[(1 : ℝ)]]
      ∧ (∀ p ∈ main_scores [[(1 : ℝ)]] [[(1 : ℝ)]], 0 < p ∧ p < 1)
      ∧ (∀ p ∈ reg_scores [[(1 : ℝ)]] [[(1 : ℝ)]], 0 < p ∧ p < 1) :=
  c8_loss_nonneg_finite ((1 : ℝ) / 10) [[(1 : ℝ)]] [[(1 : ℝ)]] [(1 : ℝ)] [[(1 : ℝ)]] [[(1 : ℝ)]]
    (by norm_num) (by intro t htm; simp only [List.mem_singleton] at htm; exact Or.inr htm)

theorem norm_eps_eq : norm_eps = 1 / 10 ^ 12 := rfl

theorem list_sum_map_sq_scale (c : ℝ) (v : List ℝ) :
    ((v.map fun x => c * x).map fun x => x ^ 2).sum = c ^ 2 * ((v.map fun x => x ^ 2).sum) := by
  induction v with
  | nil => simp
  | cons a t ih =>
    simp only [List.map_cons, List.sum_cons, ih]
    ring

theorem l2norm_scale (c : ℝ) (hc : 0 ≤ c) (v : List ℝ) :
    l2norm (v.map fun x => c * x) = c * l2norm v := by
  rw [l2norm, l2norm, list_sum_map_sq_scale, Real.sqrt_mul (sq_nonneg c), Real.sqrt_sq hc]

theorem functional_normalize_scale (c : ℝ) (hc : 0 < c) (v : List ℝ)
    (h1 : norm_eps ≤ l2norm v) (h2 : norm_eps ≤ c * l2norm v) :
    functional_normalize (v.map fun x => c * x) = functional_normalize v := by
  rw [functional_normalize, functional_normalize, l2norm_scale c hc.le, List.map_map,
    max_eq_left h2, max_eq_left h1]
  have hfun : ((fun x => x / (c * l2norm v)) ∘ fun x => c * x) = fun x => x / l2norm v := by
    funext x
    simp only [Function.comp]
    exact mul_div_mul_left x (l2norm v) (ne_of_gt hc)
  rw [hfun]

theorem map_normalize_scale_row (M : List (List ℝ)) (k : Nat) (c : ℝ) (hc : 0 < c)
    (h1 : norm_eps ≤ l2norm (M.getD k []))
    (h2 : norm_eps ≤ c * l2norm (M.getD k [])) :
    (scale_row M k c).map functional_normalize = M.map functional_normalize := by
  by_cases hk : k < M.length
  · unfold scale_row
    rw [List.map_set, functional_normalize_scale c hc _ h1 h2]
    apply List.ext_getElem
    · simp
    · intro i int1 int2
      rw [List.getElem_set]
      by_cases hik : k = i
      · subst hik
        rw [if_pos rfl, List.getElem_map, List.getD_eq_getElem M [] hk]
      · rw [if_neg hik]
  · exfalso
    rw [List.getD_eq_default M [] (by omega)] at h1
    have hz : l2norm [] = 0 := by
      rw [l2norm]
      simp
    rw [hz, norm_eps_eq] at h1
    norm_num at h1

/-- C7 (amended): scaling any single row of any one of the four embedding
matrices by a positive constant `c` leaves the loss unchanged, provided
the row's L2 norm and `c` times it are both at least the `eps = 1e-12`
that `torch.nn.functional.normalize` clamps its denominator with (rows
whose norm falls below `eps` are divided by `eps` instead of their norm
and are not scale-invariant). -/
theorem c7_scale_invariance (lambd c : ℝ) (hc : 0 < c)
    (node_f feature_f : List (List ℝ)) (targets : List ℝ)
    (source_f original_f : List (List ℝ)) (k : Nat) :
    (norm_eps ≤ l2norm (node_f.getD k []) → norm_eps ≤ c * l2norm (node_f.getD k []) →
      Splitter.forward lambd (scale_row node_f k c) feature_f targets source_f original_f
        = Splitter.forward lambd node_f feature_f targets source_f original_f)
    ∧ (norm_eps ≤ l2norm (feature_f.getD k []) → norm_eps ≤ c * l2norm (feature_f.getD k []) →
      Splitter.forward lambd node_f (scale_row feature_f k c) targets source_f original_f
        = Splitter.forward lambd node_f feature_f targets source_f original_f)
    ∧ (norm_eps ≤ l2norm (source_f.getD k []) → norm_eps ≤ c * l2norm (source_f.getD k []) →
      Splitter.forward lambd node_f feature_f targets (scale_row source_f k c) original_f
        = Splitter.forward lambd node_f feature_f targets source_f original_f)
    ∧ (norm_eps ≤ l2norm (original_f.getD k []) → norm_eps ≤ c * l2norm (original_f.getD k []) →
      Splitter.forward lambd node_f feature_f targets source_f (scale_row original_f k c)
        = Splitter.forward lambd node_f feature_f targets source_f original_f) := by
  refine ⟨fun h1 h2 => ?_, fun h1 h2 => ?_, fun h1 h2 => ?_, fun h1 h2 => ?_⟩ <;>
    simp only [Splitter.forward, calculate_main_loss, calculate_regularization,
      main_scores, reg_scores] <;>
    rw [map_normalize_scale_row _ _ _ hc h1 h2]

/-- C7 (witness of the amended claim): `c = 2` on rows of norm 1. -/
theorem c7_witness :
    (norm_eps ≤ l2norm (([[(1 : ℝ)]] : List (List ℝ)).getD 0 [])
        → norm_eps ≤ 2 * l2norm (([[(1 : ℝ)]] : List (List ℝ)).getD 0 []) →
      Splitter.forward 1 (scale_row [[(1 : ℝ)]] 0 2) [[(1 : ℝ)]] [(1 : ℝ)] [[(1 : ℝ)]] [[(1 : ℝ)]]
        = Splitter.forward 1 [[(1 : ℝ)]] [[(1 : ℝ)]] [(1 : ℝ)] [[(1 : ℝ)]] [[(1 : ℝ)]])
    ∧ (norm_eps ≤ l2norm (([[(1 : ℝ)]] : List (List ℝ)).getD 0 [])
        → norm_eps ≤ 2 * l2norm (([[(1 : ℝ)]] : List (List ℝ)).getD 0 []) →
      Splitter.forward 1 [[(1 : ℝ)]] (scale_row [[(1 : ℝ)]] 0 2) [(1 : ℝ)] [[(1 : ℝ)]] [[(1 : ℝ)]]
        = Splitter.forward 1 [[(1 : ℝ)]] [[(1 : ℝ)]] [(1 : ℝ)] [[(1 : ℝ)]] [[(1 : ℝ)]])
    ∧ (norm_eps ≤ l2norm (([[(1 : ℝ)]] : List (List ℝ)).getD 0 [])
        → norm_eps ≤ 2 * l2norm (([[(1 : ℝ)]] : List (List ℝ)).getD 0 []) →
      Splitter.forward 1 [[(1 : ℝ)]] [[(1 : ℝ)]] [(1 : ℝ)] (scale_row [[(1 : ℝ)]] 0 2) [[(1 : ℝ)]]
        = Splitter.forward 1 [[(1 : ℝ)]] [[(1 : ℝ)]] [(1 : ℝ)] [[(1 : ℝ)]] [[(1 : ℝ)]])
    ∧ (norm_eps ≤ l2norm (([[(1 : ℝ)]] : List (List ℝ)).getD 0 [])
        → norm_eps ≤ 2 * l2norm (([[(1 : ℝ)]] : List (List ℝ)).getD 0 []) →
      Splitter.forward 1 [[(1 : ℝ)]] [[(1 : ℝ)]] [(1 : ℝ)] [[(1 : ℝ)]] (scale_row [[(1 : ℝ)]] 0 2)
        = Splitter.forward 1 [[(1 : ℝ)]] [[(1 : ℝ)]] [(1 : ℝ)] [[(1 : ℝ)]] [[(1 : ℝ)]]) :=
  c7_scale_invariance 1 2 (by norm_num) [[(1 : ℝ)]] [[(1 : ℝ)]] [(1 : ℝ)] [[(1 : ℝ)]]
    [[(1 : ℝ)]] 0

theorem l2norm_singleton (a : ℝ) (ha : 0 ≤ a) : l2norm [a] = a := by
  rw [l2norm]
  simp only [List.map_cons, List.map_nil, List.sum_cons, List.sum_nil, add_zero]
  exact Real.sqrt_sq ha

theorem functional_normalize_singleton (a : ℝ) (ha : 0 ≤ a) :
    functional_normalize [a] = [a / max a norm_eps] := by
  rw [functional_normalize, l2norm_singleton a ha]
  rfl

theorem functional_normalize_one : functional_normalize [(1 : ℝ)] = [1] := by
  rw [functional_normalize_singleton 1 (by norm_num),
    max_eq_left (by rw [norm_eps_eq]; norm_num), div_one]

theorem forward_single_eval (a : ℝ) (ha : 0 ≤ a) :
    Splitter.forward 1 [[a]] [[(1 : ℝ)]] [(1 : ℝ)] [[(1 : ℝ)]] [[(1 : ℝ)]]
      = -(Real.log (sigmoid (a / max a norm_eps)) + Real.log (sigmoid 1)) := by
  rw [Splitter.forward, calculate_main_loss, calculate_regularization, main_scores, reg_scores]
  simp only [List.map_cons, List.map_nil]
  rw [functional_normalize_singleton a ha, functional_normalize_one]
  simp only [List.zipWith_cons_cons, List.zipWith_nil_right, List.map_cons, List.map_nil,
    List.sum_cons, List.sum_nil, add_zero, mul_one, List.zipWith_nil_left]
  rw [list_mean, list_mean]
  simp only [List.sum_cons, List.sum_nil, List.length_cons, List.length_nil, add_zero]
  norm_num
  ring

theorem sigmoid_strict_mono (a b : ℝ) (h : a < b) : sigmoid a < sigmoid b := by
  rw [sigmoid, sigmoid, one_div_lt_one_div (by positivity) (by positivity)]
  have := Real.exp_lt_exp.mpr (neg_lt_neg h)
  linarith

/-- C7 (counterexample): scaling the single row `[1e-13]` of `node_f` by
the positive constant `c = 10` changes the loss: the row's norm lies below
the `eps = 1e-12` of `torch.nn.functional.normalize`, so before scaling it
is divided by `eps` (giving cosine score 0.1) while after scaling it is
divided by its own norm (giving cosine score 1). -/
theorem c7_counterexample :
    (0 : ℝ) < 10
      ∧ Splitter.forward 1 (scale_row [[(1 : ℝ) / 10 ^ 13]] 0 10) [[(1 : ℝ)]] [(1 : ℝ)]
          [[(1 : ℝ)]] [[(1 : ℝ)]]
        ≠ Splitter.forward 1 [[(1 : ℝ) / 10 ^ 13]] [[(1 : ℝ)]] [(1 : ℝ)]
            [[(1 : ℝ)]] [[(1 : ℝ)]] := by
  refine ⟨by norm_num, ?_⟩
  have hs : scale_row [[(1 : ℝ) / 10 ^ 13]] 0 10 = [[(1 : ℝ) / 10 ^ 12]] := by
    unfold scale_row
    norm_num [List.set]
  rw [hs, forward_single_eval ((1 : ℝ) / 10 ^ 12) (by norm_num),
    forward_single_eval ((1 : ℝ) / 10 ^ 13) (by norm_num)]
  have e1 : ((1 : ℝ) / 10 ^ 12) / max ((1 : ℝ) / 10 ^ 12) norm_eps = 1 := by
    rw [norm_eps_eq, max_self]
    norm_num
  have e2 : ((1 : ℝ) / 10 ^ 13) / max ((1 : ℝ) / 10 ^ 13) norm_eps = 1 / 10 := by
    rw [norm_eps_eq, max_eq_right (by norm_num)]
    norm_num
  rw [e1, e2]
  have hlt : Real.log (sigmoid (1 / 10)) < Real.log (sigmoid 1) :=
    Real.log_lt_log (sigmoid_pos _) (sigmoid_strict_mono _ _ (by norm_num))
  intro heq
  rw [neg_inj] at heq
  linarith
